import Mathlib

/-!
# Verification of the TravelPlaner chat core (`src/frontend/src/pages/chat/Chat.tsx`)

A shallow embedding of the chat page's event-reconciliation logic:

* the agent-status reducer (`setAgentStatuses` updater, Chat.tsx lines 86-100),
* the transcript reducer (`setMessages` updater, lines 101-103),
* the sanitizing renderer (`escapeHtml` / `renderMessageContent`, lines 44-67),
* the send gate (`handleSendMessage`, lines 127-140),
* the derived progress percentage and progress-bar width (lines 308-313 and 359-370),
* the WebSocket / session lifecycle as far as it touches component state
  (the `useEffect` on `tripId`, lines 69-120).

JavaScript numbers are modelled as exact rationals extended with the IEEE-754
special values `Infinity`, `-Infinity` and `NaN`; every concrete value the
theorems below evaluate (integers, quarters) is exactly representable in
binary64, so on those inputs the idealization agrees with JavaScript.
Strings are modelled as `String` / `List Char`.
-/

namespace Chat

/-! ## JavaScript numbers (exact-rational idealization with IEEE special values) -/

/-- A JavaScript number: a finite value (idealized as an exact rational),
`Infinity`, `-Infinity` or `NaN`. -/
inductive JSNum where
  | num : ℚ → JSNum
  | inf : JSNum
  | negInf : JSNum
  | nan : JSNum
deriving DecidableEq, Repr

/-- JavaScript `/` on numbers: finite division when the divisor is nonzero;
`x / 0` is `Infinity`, `-Infinity` or `NaN` according to the sign of `x`
(IEEE-754, as JavaScript evaluates it — no exception is ever raised). -/
def jsDiv : JSNum → JSNum → JSNum
  | JSNum.num a, JSNum.num b =>
      if b = 0 then
        (if a = 0 then JSNum.nan else if 0 < a then JSNum.inf else JSNum.negInf)
      else JSNum.num (a / b)
  | JSNum.nan, _ => JSNum.nan
  | _, JSNum.nan => JSNum.nan
  | JSNum.inf, JSNum.num b => if 0 ≤ b then JSNum.inf else JSNum.negInf
  | JSNum.negInf, JSNum.num b => if 0 ≤ b then JSNum.negInf else JSNum.inf
  | JSNum.inf, JSNum.inf => JSNum.nan
  | JSNum.inf, JSNum.negInf => JSNum.nan
  | JSNum.negInf, JSNum.inf => JSNum.nan
  | JSNum.negInf, JSNum.negInf => JSNum.nan
  | JSNum.num _, JSNum.inf => JSNum.num 0
  | JSNum.num _, JSNum.negInf => JSNum.num 0

/-- JavaScript `*` on numbers, with the IEEE-754 special-value rules
(`Infinity * 0` is `NaN`, `Infinity * positive` is `Infinity`, ...). -/
def jsMul : JSNum → JSNum → JSNum
  | JSNum.num a, JSNum.num b => JSNum.num (a * b)
  | JSNum.nan, _ => JSNum.nan
  | _, JSNum.nan => JSNum.nan
  | JSNum.inf, JSNum.num b =>
      if b = 0 then JSNum.nan else if 0 < b then JSNum.inf else JSNum.negInf
  | JSNum.num a, JSNum.inf =>
      if a = 0 then JSNum.nan else if 0 < a then JSNum.inf else JSNum.negInf
  | JSNum.negInf, JSNum.num b =>
      if b = 0 then JSNum.nan else if 0 < b then JSNum.negInf else JSNum.inf
  | JSNum.num a, JSNum.negInf =>
      if a = 0 then JSNum.nan else if 0 < a then JSNum.negInf else JSNum.inf
  | JSNum.inf, JSNum.inf => JSNum.inf
  | JSNum.inf, JSNum.negInf => JSNum.negInf
  | JSNum.negInf, JSNum.inf => JSNum.negInf
  | JSNum.negInf, JSNum.negInf => JSNum.inf

/-- JavaScript truthiness of a number: `0` and `NaN` are falsy, everything
else (including `Infinity`) is truthy. -/
def jsTruthy : JSNum → Bool
  | JSNum.num a => a ≠ 0
  | JSNum.nan => false
  | _ => true

/-! ## Data model (Chat.tsx interfaces `Message` and `AgentStatus`) -/

/-- The `progress` field of an `AgentStatus`:
`{ current: number; total: number } | number` (Chat.tsx line 23).
Events carry integers, so both shapes are modelled over `ℤ`. -/
inductive Progress where
  | int : ℤ → Progress
  | pair : ℤ → ℤ → Progress
deriving DecidableEq, Repr

/-- JavaScript truthiness of a `progress` value: the number `0` is falsy,
any nonzero number and any `{current,total}` object is truthy. -/
def progressTruthy : Progress → Bool
  | Progress.int n => n ≠ 0
  | Progress.pair _ _ => true

/-- A chat message (the `Message` interface, Chat.tsx lines 7-16), as routed
to the transcript. `msgType` is the `type` field (`'user' | 'ai'` for
transcript messages). -/
structure Message where
  senderId : String
  senderName : String
  content : String
  msgType : String
  timestamp : String
deriving DecidableEq, Repr

/-- An inbound `agent_status` event: the fields of the decoded message that
the status reducer reads (Chat.tsx lines 85-100). `progress` and
`elapsed_seconds` are optional. -/
structure AgentStatusEvent where
  agent_name : String
  status : String
  step : String
  timestamp : String
  progress : Option Progress
  elapsed_seconds : Option ℤ
deriving DecidableEq, Repr

/-- An entry of the status collection (the `AgentStatus` interface,
Chat.tsx lines 18-26): the latest event's fields plus the bounded
`step_history` of previous `{step, timestamp}` pairs. -/
structure AgentStatus where
  agent_name : String
  status : String
  step : String
  timestamp : String
  progress : Option Progress
  elapsed_seconds : Option ℤ
  step_history : List (String × String)
deriving DecidableEq, Repr

/-- The record `{ ...message, step_history: h }` built by the status reducer
from an inbound event (Chat.tsx lines 96 and 99). -/
def recordOfEvent (m : AgentStatusEvent) (h : List (String × String)) : AgentStatus :=
  ⟨m.agent_name, m.status, m.step, m.timestamp, m.progress, m.elapsed_seconds, h⟩

/-- JavaScript `Array.prototype.slice(-n)`: the last `min n l.length`
elements of `l` (Chat.tsx line 95, `slice(-10)`). -/
def sliceLast (n : ℕ) (l : List α) : List α :=
  l.drop (l.length - n)

/-! ## The two reducers -/

/-- The transcript reducer, `setMessages((prev) => [...prev, message])`
(Chat.tsx line 102): append the incoming message at the end. -/
def transcriptReduce (prev : List Message) (message : Message) : List Message :=
  prev ++ [message]

/-- The agent-status reducer (Chat.tsx lines 86-100).
The source finds the first index whose `agent_name` strictly equals the
event's (`findIndex`, line 87); if found it replaces the record at that index
with `{ ...message, step_history: newHistory }` where `newHistory` appends
the old record's `{step, timestamp}` to the old history and keeps the last
10 entries (lines 89-97); otherwise it appends `{ ...message,
step_history: [] }` at the end (line 99). Here the find-first-and-replace is
written as structural recursion over the list. -/
def statusReduce : List AgentStatus → AgentStatusEvent → List AgentStatus
  | [], message => [recordOfEvent message []]
  | oldAgent :: rest, message =>
      if oldAgent.agent_name == message.agent_name then
        recordOfEvent message
          (sliceLast 10 (oldAgent.step_history ++ [(oldAgent.step, oldAgent.timestamp)])) :: rest
      else
        oldAgent :: statusReduce rest message

/-- The `agent_name` keys of the status collection, in order. -/
def agentNames (s : List AgentStatus) : List String :=
  s.map (fun r => r.agent_name)

/-- Lookup of an agent's record by name, as the page does with
`agentStatuses.find((a) => a.agent_name === showHistory)` (Chat.tsx
line 402). -/
def findAgent (s : List AgentStatus) (name : String) : Option AgentStatus :=
  s.find? (fun r => r.agent_name == name)

/-! ## Sanitizing renderer (`escapeHtml` / `renderMessageContent`, Chat.tsx 44-67)

The five single-character global replaces of `escapeHtml` are modelled as
successive character-wise `List.bind`s (a global replace of a one-character
pattern substitutes every occurrence and does not rescan its own
replacement, but each later `replace` call rescans the whole intermediate
string — exactly the composition of binds). The three regex substitutions
of `renderMessageContent` are modelled by scanners that mirror the
JavaScript regex engine on these patterns: global, leftmost match,
non-greedy `(.+?)` content in which `.` matches no line terminator, and on
failure the scan position advances by one character. -/

/-- The double-quote character `"`. -/
def quoteChar : Char := Char.ofNat 34

/-- The apostrophe character. -/
def aposChar : Char := Char.ofNat 39

/-- The step `.replace(/&/g, '&amp;')` on a single character. -/
def escAmp (c : Char) : List Char := if c = '&' then "&amp;".data else [c]

/-- The step `.replace(/</g, '&lt;')` on a single character. -/
def escLt (c : Char) : List Char := if c = '<' then "&lt;".data else [c]

/-- The step `.replace(/>/g, '&gt;')` on a single character. -/
def escGt (c : Char) : List Char := if c = '>' then "&gt;".data else [c]

/-- The step `.replace(/"/g, '&quot;')` on a single character. -/
def escQuot (c : Char) : List Char := if c = quoteChar then "&quot;".data else [c]

/-- The step `.replace(/'/g, '&#039;')` on a single character. -/
def escApos (c : Char) : List Char := if c = aposChar then "&#039;".data else [c]

/-- The function `escapeHtml` (Chat.tsx lines 44-50): the five global replaces applied in
source order (`&`, `<`, `>`, `"`, `'`). -/
def escapeHtml (s : List Char) : List Char :=
  ((((s.flatMap escAmp).flatMap escLt).flatMap escGt).flatMap escQuot).flatMap escApos

/-- The combined per-character escape: each of the five HTML-significant
characters to its entity form, everything else unchanged. Used to state
that the five sequential replaces of `escapeHtml` act like one simultaneous
substitution (the spec's reading of step 1). -/
def escAll (c : Char) : List Char :=
  if c = '&' then "&amp;".data
  else if c = '<' then "&lt;".data
  else if c = '>' then "&gt;".data
  else if c = quoteChar then "&quot;".data
  else if c = aposChar then "&#039;".data
  else [c]

/-- A JavaScript regex line terminator (`.` matches none of these). -/
def isLineTerm (c : Char) : Bool :=
  c = '\n' || c = '\r' || c = Char.ofNat 0x2028 || c = Char.ofNat 0x2029

/-- Non-greedy search for the closing `**` of a bold span: given the
characters after the opening `**`, return the shortest nonempty
line-terminator-free content followed by `**`, with the remainder after the
closing delimiter. `none` when no such close exists. -/
def scanBoldClose : List Char → Option (List Char × List Char)
  | [] => none
  | c :: rest =>
      if isLineTerm c then none
      else
        match rest with
        | '*' :: '*' :: rest2 => some ([c], rest2)
        | _ =>
            match scanBoldClose rest with
            | some (content, r) => some (c :: content, r)
            | none => none

/-- One pass of `.replace(/\*\*(.+?)\*\*/g, '<strong>$1</strong>')`
(Chat.tsx line 58), with fuel bounding the number of scan steps: at an
opening `**` with a successful non-greedy close, emit the strong span and
continue after the match; otherwise advance one character. -/
def boldAux : ℕ → List Char → List Char
  | 0, s => s
  | _ + 1, [] => []
  | fuel + 1, '*' :: '*' :: t =>
      match scanBoldClose t with
      | some (content, rest) =>
          "<strong>".data ++ content ++ "</strong>".data ++ boldAux fuel rest
      | none => '*' :: boldAux fuel ('*' :: t)
  | fuel + 1, c :: t => c :: boldAux fuel t

/-- The bold substitution over a whole character list. -/
def boldScan (s : List Char) : List Char := boldAux s.length s

/-- Non-greedy search for the closing `*` of an italic span. -/
def scanItalClose : List Char → Option (List Char × List Char)
  | [] => none
  | c :: rest =>
      if isLineTerm c then none
      else
        match rest with
        | '*' :: rest2 => some ([c], rest2)
        | _ =>
            match scanItalClose rest with
            | some (content, r) => some (c :: content, r)
            | none => none

/-- One pass of `.replace(/\*(.+?)\*/g, '<em>$1</em>')` (Chat.tsx line 61),
with fuel bounding the number of scan steps. -/
def italAux : ℕ → List Char → List Char
  | 0, s => s
  | _ + 1, [] => []
  | fuel + 1, '*' :: t =>
      match scanItalClose t with
      | some (content, rest) =>
          "<em>".data ++ content ++ "</em>".data ++ italAux fuel rest
      | none => '*' :: italAux fuel t
  | fuel + 1, c :: t => c :: italAux fuel t

/-- The italic substitution over a whole character list. -/
def italScan (s : List Char) : List Char := italAux s.length s

/-- The step `.replace(/\r?\n/g, '<br/>')` (Chat.tsx line 64): each `\r\n` or lone
`\n` becomes `<br/>`; a lone `\r` is untouched. -/
def brScan : List Char → List Char
  | [] => []
  | '\r' :: '\n' :: t => "<br/>".data ++ brScan t
  | '\n' :: t => "<br/>".data ++ brScan t
  | c :: t => c :: brScan t

/-- The function `renderMessageContent` (Chat.tsx lines 52-67): empty input yields the
empty string (`if (!text) return ''`); otherwise escape first, then bold,
then italic, then line breaks, in that order. -/
def renderMessageContent (text : String) : String :=
  if text = "" then ""
  else String.mk (brScan (italScan (boldScan (escapeHtml text.data))))

/-! ## Derived progress percentage and bar width -/

/-- The derived progress percentage (Chat.tsx lines 309-313):
`agent.progress ? (typeof agent.progress === 'number' ? agent.progress
: (agent.progress.current / agent.progress.total) * 100) : 0`.
An absent or falsy `progress` yields `0`; a `{current,total}` pair yields
`(current / total) * 100` with JavaScript's division semantics. -/
def progressPercent (progress : Option Progress) : JSNum :=
  match progress with
  | none => JSNum.num 0
  | some p =>
      if progressTruthy p then
        match p with
        | Progress.int n => JSNum.num n
        | Progress.pair current total =>
            jsMul (jsDiv (JSNum.num current) (JSNum.num total)) (JSNum.num 100)
      else JSNum.num 0

/-- The progress-bar width for a running agent (Chat.tsx line 365):
`width: `\x7b`${progressPercent || 75}%`\x7d` — the percent when it is truthy,
else the fixed fallback `75`. -/
def barWidthPercent (progress : Option Progress) : JSNum :=
  let pc := progressPercent progress
  if jsTruthy pc then pc else JSNum.num 75

/-! ## Component state, send gate and session lifecycle (Chat.tsx 28-140)

The component's session-scoped state: the `useState` hooks `messages`,
`agentStatuses`, `inputMessage`, `isConnected` (lines 31-35) plus the
`tripId` route parameter and the `wsRef` mutable reference (line 36),
modelled as an optional connection tag. -/

structure ChatComponent where
  tripId : Option String
  messages : List Message
  agentStatuses : List AgentStatus
  inputMessage : String
  isConnected : Bool
  wsConn : Option ℕ
deriving DecidableEq, Repr

/-- The component's initial state: `useState` initializers are `[]`, `[]`,
`''` and `false` (Chat.tsx lines 31-35); on mount the effect stores the
session's connection in `wsRef` (line 115). -/
def initialComponent (trip : String) (conn : ℕ) : ChatComponent :=
  ⟨some trip, [], [], "", false, some conn⟩

/-- An inbound decoded event, discriminated by `message.type ===
'agent_status'` (Chat.tsx line 85). -/
inductive InboundEvent where
  | agentStatus : AgentStatusEvent → InboundEvent
  | chat : Message → InboundEvent
deriving DecidableEq, Repr

/-- The `ws.onmessage` handler (Chat.tsx lines 81-104): an `agent_status`
event goes to the status reducer, anything else to the transcript reducer.
The handler closes over the component's `setMessages`/`setAgentStatuses`
and never inspects which connection delivered the event or the current
`tripId`. -/
def onMessage (st : ChatComponent) (ev : InboundEvent) : ChatComponent :=
  match ev with
  | InboundEvent.agentStatus m => { st with agentStatuses := statusReduce st.agentStatuses m }
  | InboundEvent.chat m => { st with messages := transcriptReduce st.messages m }

/-- The handler `ws.onopen` (Chat.tsx lines 76-79): `setIsConnected(true)`. -/
def onOpen (st : ChatComponent) : ChatComponent :=
  { st with isConnected := true }

/-- The handler `ws.onclose` (Chat.tsx lines 110-113): `setIsConnected(false)`. -/
def onClose (st : ChatComponent) : ChatComponent :=
  { st with isConnected := false }

/-- The `useEffect` on `[tripId]` (Chat.tsx lines 69-120) at an identifier
change: the cleanup closes the old WebSocket (`ws.close()`, line 118) and
the body opens a new connection for the new identifier and stores it in
`wsRef` (lines 73-75 and 115). Neither the cleanup nor the body calls
`setMessages` or `setAgentStatuses`, so the transcript and the status
collection keep whatever values they had in the previous session. -/
def sessionSwitch (st : ChatComponent) (newTrip : String) (newConn : ℕ) : ChatComponent :=
  { st with tripId := some newTrip, wsConn := some newConn }

/-- A character `String.prototype.trim` removes (ECMAScript WhiteSpace or
LineTerminator). -/
def isJsWhitespace (c : Char) : Bool :=
  c = ' ' || c = '\t' || c = '\n' || c = '\r' ||
  c = Char.ofNat 0x0B || c = Char.ofNat 0x0C || c = Char.ofNat 0xA0 ||
  c = Char.ofNat 0x1680 || (0x2000 ≤ c.toNat && c.toNat ≤ 0x200A) ||
  c = Char.ofNat 0x2028 || c = Char.ofNat 0x2029 || c = Char.ofNat 0x202F ||
  c = Char.ofNat 0x205F || c = Char.ofNat 0x3000 || c = Char.ofNat 0xFEFF

/-- JavaScript `String.prototype.trim`: drop whitespace from both ends. -/
def jsTrim (s : List Char) : List Char :=
  ((s.dropWhile isJsWhitespace).reverse.dropWhile isJsWhitespace).reverse

/-- The local user read from `localStorage` (Chat.tsx line 39); `id` and
`name` may be absent. -/
structure UserInfo where
  id : Option String
  name : Option String
deriving DecidableEq, Repr

/-- The outbound payload built by `handleSendMessage` (Chat.tsx lines
130-136): `senderId: currentUser.id || 'unknown'`, `senderName:
currentUser.name || 'Anonymous'`, the raw input as content, `type: 'user'`
and the current time as timestamp. -/
def outboundMessage (u : UserInfo) (content now : String) : Message :=
  ⟨u.id.getD "unknown", u.name.getD "Anonymous", content, "user", now⟩

/-- The function `handleSendMessage` (Chat.tsx lines 127-140): when the trimmed input is
empty, `wsRef.current` is null, or `isConnected` is false, return without
sending (`if (!inputMessage.trim() || !wsRef.current || !isConnected)
return;`). Otherwise transmit the outbound payload and clear the input.
The result pairs the next component state with the transport write, if
any; the function is total, so no error escapes to the caller. -/
def handleSendMessage (st : ChatComponent) (u : UserInfo) (now : String) :
    ChatComponent × Option Message :=
  if jsTrim st.inputMessage.data = [] ∨ st.wsConn = none ∨ st.isConnected = false then
    (st, none)
  else
    ({ st with inputMessage := "" }, some (outboundMessage u st.inputMessage now))

/-! ## Helper lemmas -/

/-- Folding the transcript reducer appends the event list to the
accumulator. -/
theorem foldl_transcriptReduce (events : List Message) :
    ∀ acc : List Message, List.foldl transcriptReduce acc events = acc ++ events := by
  induction events with
  | nil => intro acc; simp
  | cons e rest ih =>
      intro acc
      simp [List.foldl, transcriptReduce, ih]

/-- A string all of whose characters are JavaScript whitespace trims to the
empty string. -/
theorem jsTrim_eq_nil_of_all_white (s : List Char)
    (h : ∀ c ∈ s, isJsWhitespace c = true) : jsTrim s = [] := by
  unfold jsTrim
  rw [List.dropWhile_eq_nil_iff.mpr h]
  rfl

@[simp] theorem agentNames_nil : agentNames [] = [] := rfl

@[simp] theorem agentNames_cons (r : AgentStatus) (s : List AgentStatus) :
    agentNames (r :: s) = r.agent_name :: agentNames s := rfl

@[simp] theorem recordOfEvent_name (m : AgentStatusEvent) (h : List (String × String)) :
    (recordOfEvent m h).agent_name = m.agent_name := rfl

@[simp] theorem recordOfEvent_step (m : AgentStatusEvent) (h : List (String × String)) :
    (recordOfEvent m h).step = m.step := rfl

@[simp] theorem recordOfEvent_timestamp (m : AgentStatusEvent) (h : List (String × String)) :
    (recordOfEvent m h).timestamp = m.timestamp := rfl

@[simp] theorem recordOfEvent_history (m : AgentStatusEvent) (h : List (String × String)) :
    (recordOfEvent m h).step_history = h := rfl

/-- The keys after a status update: unchanged when the event's name is
already present, extended by that name at the end otherwise. -/
theorem agentNames_statusReduce (s : List AgentStatus) (e : AgentStatusEvent) :
    agentNames (statusReduce s e) =
      if e.agent_name ∈ agentNames s then agentNames s
      else agentNames s ++ [e.agent_name] := by
  induction s with
  | nil => simp [statusReduce]
  | cons r rest ih =>
      by_cases h : r.agent_name = e.agent_name
      · simp [statusReduce, h]
      · by_cases hm : e.agent_name ∈ agentNames rest
        · simp [statusReduce, h, Ne.symm h, hm, ih]
        · simp [statusReduce, h, Ne.symm h, hm, ih]

/-- The status collection and its key list have the same length. -/
theorem length_agentNames (s : List AgentStatus) : (agentNames s).length = s.length := by
  simp [agentNames]

/-- A status update keeps the size when the key exists and adds exactly one
entry otherwise. -/
theorem length_statusReduce (s : List AgentStatus) (e : AgentStatusEvent) :
    (statusReduce s e).length =
      if e.agent_name ∈ agentNames s then s.length else s.length + 1 := by
  rw [← length_agentNames, agentNames_statusReduce]
  split <;> simp [length_agentNames]

/-- A status update preserves distinctness of the keys. -/
theorem nodup_agentNames_statusReduce (s : List AgentStatus) (e : AgentStatusEvent)
    (h : (agentNames s).Nodup) : (agentNames (statusReduce s e)).Nodup := by
  rw [agentNames_statusReduce]
  split
  · exact h
  · next hm => simp [List.nodup_append, h, hm]

/-- Every status collection reached from a start with distinct keys has
distinct keys. -/
theorem nodup_agentNames_foldl (events : List AgentStatusEvent) :
    ∀ s : List AgentStatus, (agentNames s).Nodup →
      (agentNames (List.foldl statusReduce s events)).Nodup := by
  induction events with
  | nil => intro s hs; simpa using hs
  | cons e rest ih => intro s hs; exact ih _ (nodup_agentNames_statusReduce s e hs)

/-- The slice `sliceLast` keeps at most `n` elements. -/
theorem sliceLast_length_le (n : ℕ) (l : List α) : (sliceLast n l).length ≤ n := by
  simp [sliceLast]
  omega

/-- A status update keeps every record's history within the 10-entry cap. -/
theorem statusReduce_history_le (s : List AgentStatus) (e : AgentStatusEvent) :
    (∀ r ∈ s, r.step_history.length ≤ 10) →
    ∀ r ∈ statusReduce s e, r.step_history.length ≤ 10 := by
  induction s with
  | nil =>
      intro _ r hr
      simp [statusReduce] at hr
      subst hr
      simp
  | cons r0 rest ih =>
      intro h r hr
      by_cases hname : r0.agent_name = e.agent_name
      · simp [statusReduce, hname] at hr
        rcases hr with hr | hr
        · subst hr
          simpa using sliceLast_length_le 10
            (r0.step_history ++ [(r0.step, r0.timestamp)])
        · exact h r (List.mem_cons_of_mem _ hr)
      · simp [statusReduce, hname] at hr
        rcases hr with hr | hr
        · subst hr
          exact h _ (List.mem_cons_self _ _)
        · exact ih (fun x hx => h x (List.mem_cons_of_mem _ hx)) r hr

/-- Histories stay within the cap along any fold of status events. -/
theorem foldl_statusReduce_history_le (events : List AgentStatusEvent) :
    ∀ s : List AgentStatus, (∀ r ∈ s, r.step_history.length ≤ 10) →
      ∀ r ∈ List.foldl statusReduce s events, r.step_history.length ≤ 10 := by
  induction events with
  | nil => intro s hs; simpa using hs
  | cons e rest ih => intro s hs; exact ih _ (statusReduce_history_le s e hs)

/-! ## Claim theorems -/

/-- Claim C6: applying any sequence of chat events in arrival order to the
initially empty transcript yields a transcript of exactly that sequence:
same length, same order, no reordering and no deduplication; and each
single application appends the event at the end, leaving every previously
inserted event unchanged. -/
theorem transcript_preserves_order (events : List Message) :
    List.foldl transcriptReduce [] events = events ∧
    (List.foldl transcriptReduce [] events).length = events.length ∧
    ∀ prev m, transcriptReduce prev m = prev ++ [m] := by
  refine ⟨?_, ?_, fun prev m => rfl⟩
  · simpa using foldl_transcriptReduce events []
  · simp [foldl_transcriptReduce]

/-- Claim C9: two agent-status events with different `agent_name`s applied to
the empty status collection produce a collection of size 2 in either
application order. -/
theorem status_two_names_size_two (e1 e2 : AgentStatusEvent)
    (h : e1.agent_name ≠ e2.agent_name) :
    (statusReduce (statusReduce [] e1) e2).length = 2 ∧
    (statusReduce (statusReduce [] e2) e1).length = 2 := by
  constructor <;> simp [statusReduce, recordOfEvent, h, Ne.symm h]

/-- Witness for `status_two_names_size_two` at two concrete events. -/
theorem status_two_names_size_two_witness :
    (statusReduce (statusReduce []
        (⟨"planner", "running", "s", "t", none, none⟩ : AgentStatusEvent))
        ⟨"searcher", "running", "s", "t", none, none⟩).length = 2 ∧
    (statusReduce (statusReduce []
        (⟨"searcher", "running", "s", "t", none, none⟩ : AgentStatusEvent))
        ⟨"planner", "running", "s", "t", none, none⟩).length = 2 :=
  status_two_names_size_two
    ⟨"planner", "running", "s", "t", none, none⟩
    ⟨"searcher", "running", "s", "t", none, none⟩ (by decide)

/-- Claim C7: every status collection reachable from the empty one has
pairwise-distinct `agent_name` keys — at most one record per agent; an
event whose name is already present replaces without changing the size,
and an event with a new name adds exactly one record. -/
theorem status_at_most_one_record_per_name (events : List AgentStatusEvent)
    (e : AgentStatusEvent) :
    (agentNames (List.foldl statusReduce [] events)).Nodup ∧
    (e.agent_name ∈ agentNames (List.foldl statusReduce [] events) →
      (statusReduce (List.foldl statusReduce [] events) e).length =
        (List.foldl statusReduce [] events).length) ∧
    (e.agent_name ∉ agentNames (List.foldl statusReduce [] events) →
      (statusReduce (List.foldl statusReduce [] events) e).length =
        (List.foldl statusReduce [] events).length + 1) := by
  refine ⟨nodup_agentNames_foldl events [] (by simp), ?_, ?_⟩
  · intro hm
    rw [length_statusReduce, if_pos hm]
  · intro hm
    rw [length_statusReduce, if_neg hm]

/-- Witness for `status_at_most_one_record_per_name`: a second event for an
existing agent replaces its record without growing the collection. -/
theorem status_at_most_one_record_per_name_witness :
    (statusReduce (List.foldl statusReduce []
        [(⟨"planner", "starting", "s0", "t0", none, none⟩ : AgentStatusEvent)])
        ⟨"planner", "running", "s1", "t1", none, none⟩).length =
      (List.foldl statusReduce []
        [(⟨"planner", "starting", "s0", "t0", none, none⟩ : AgentStatusEvent)]).length :=
  (status_at_most_one_record_per_name
    [⟨"planner", "starting", "s0", "t0", none, none⟩]
    ⟨"planner", "running", "s1", "t1", none, none⟩).2.1 (by decide)

/-- Claim C3: starting from the empty status collection, twelve consecutive
events for one agent leave a single record whose `step_history` is exactly
the ten most recent previous `{step, timestamp}` pairs, in order — the
pairs of events 2 through 11, the first event's pair having been evicted
first — so its length is exactly 10; and along any sequence of status
events, every reachable record's history length is at most 10. -/
theorem step_history_cap (e1 e2 e3 e4 e5 e6 e7 e8 e9 e10 e11 e12 : AgentStatusEvent)
    (h2 : e2.agent_name = e1.agent_name) (h3 : e3.agent_name = e1.agent_name)
    (h4 : e4.agent_name = e1.agent_name) (h5 : e5.agent_name = e1.agent_name)
    (h6 : e6.agent_name = e1.agent_name) (h7 : e7.agent_name = e1.agent_name)
    (h8 : e8.agent_name = e1.agent_name) (h9 : e9.agent_name = e1.agent_name)
    (h10 : e10.agent_name = e1.agent_name) (h11 : e11.agent_name = e1.agent_name)
    (h12 : e12.agent_name = e1.agent_name) :
    List.foldl statusReduce [] [e1, e2, e3, e4, e5, e6, e7, e8, e9, e10, e11, e12] =
      [recordOfEvent e12
        [(e2.step, e2.timestamp), (e3.step, e3.timestamp), (e4.step, e4.timestamp),
         (e5.step, e5.timestamp), (e6.step, e6.timestamp), (e7.step, e7.timestamp),
         (e8.step, e8.timestamp), (e9.step, e9.timestamp), (e10.step, e10.timestamp),
         (e11.step, e11.timestamp)]] ∧
    (recordOfEvent e12
        [(e2.step, e2.timestamp), (e3.step, e3.timestamp), (e4.step, e4.timestamp),
         (e5.step, e5.timestamp), (e6.step, e6.timestamp), (e7.step, e7.timestamp),
         (e8.step, e8.timestamp), (e9.step, e9.timestamp), (e10.step, e10.timestamp),
         (e11.step, e11.timestamp)]).step_history.length = 10 ∧
    ∀ events : List AgentStatusEvent, ∀ r ∈ List.foldl statusReduce [] events,
      r.step_history.length ≤ 10 := by
  refine ⟨?_, rfl,
    fun events r hr => foldl_statusReduce_history_le events [] (by simp) r hr⟩
  have hs : ∀ (r : AgentStatus) (e : AgentStatusEvent),
      r.agent_name = e.agent_name →
      statusReduce [r] e =
        [recordOfEvent e (sliceLast 10 (r.step_history ++ [(r.step, r.timestamp)]))] := by
    intro r e h
    simp [statusReduce, h]
  simp only [List.foldl_cons, List.foldl_nil]
  rw [show statusReduce [] e1 = [recordOfEvent e1 []] from rfl,
    hs _ _ (by simp [h2]), hs _ _ (by simp [h2, h3]), hs _ _ (by simp [h3, h4]),
    hs _ _ (by simp [h4, h5]), hs _ _ (by simp [h5, h6]), hs _ _ (by simp [h6, h7]),
    hs _ _ (by simp [h7, h8]), hs _ _ (by simp [h8, h9]), hs _ _ (by simp [h9, h10]),
    hs _ _ (by simp [h10, h11]), hs _ _ (by simp [h11, h12])]
  simp [sliceLast]

/-- Witness for `step_history_cap` at twelve concrete events. -/
theorem step_history_cap_witness :
    List.foldl statusReduce []
      [(⟨"planner", "running", "s1", "t1", none, none⟩ : AgentStatusEvent),
       ⟨"planner", "running", "s2", "t2", none, none⟩,
       ⟨"planner", "running", "s3", "t3", none, none⟩,
       ⟨"planner", "running", "s4", "t4", none, none⟩,
       ⟨"planner", "running", "s5", "t5", none, none⟩,
       ⟨"planner", "running", "s6", "t6", none, none⟩,
       ⟨"planner", "running", "s7", "t7", none, none⟩,
       ⟨"planner", "running", "s8", "t8", none, none⟩,
       ⟨"planner", "running", "s9", "t9", none, none⟩,
       ⟨"planner", "running", "s10", "t10", none, none⟩,
       ⟨"planner", "running", "s11", "t11", none, none⟩,
       ⟨"planner", "running", "s12", "t12", none, none⟩] =
      [recordOfEvent ⟨"planner", "running", "s12", "t12", none, none⟩
        [("s2", "t2"), ("s3", "t3"), ("s4", "t4"), ("s5", "t5"), ("s6", "t6"),
         ("s7", "t7"), ("s8", "t8"), ("s9", "t9"), ("s10", "t10"), ("s11", "t11")]] :=
  (step_history_cap
    ⟨"planner", "running", "s1", "t1", none, none⟩
    ⟨"planner", "running", "s2", "t2", none, none⟩
    ⟨"planner", "running", "s3", "t3", none, none⟩
    ⟨"planner", "running", "s4", "t4", none, none⟩
    ⟨"planner", "running", "s5", "t5", none, none⟩
    ⟨"planner", "running", "s6", "t6", none, none⟩
    ⟨"planner", "running", "s7", "t7", none, none⟩
    ⟨"planner", "running", "s8", "t8", none, none⟩
    ⟨"planner", "running", "s9", "t9", none, none⟩
    ⟨"planner", "running", "s10", "t10", none, none⟩
    ⟨"planner", "running", "s11", "t11", none, none⟩
    ⟨"planner", "running", "s12", "t12", none, none⟩
    rfl rfl rfl rfl rfl rfl rfl rfl rfl rfl rfl).1

/-- Claim C5: the send operation is a no-op — no transport write, state
unchanged, no error — whenever the content is empty or whitespace-only
(every character is JavaScript whitespace; the empty string vacuously so)
or the connection is not open. -/
theorem send_gate_no_op (st : ChatComponent) (u : UserInfo) (now : String)
    (h : (∀ c ∈ st.inputMessage.data, isJsWhitespace c = true) ∨
      st.isConnected = false) :
    handleSendMessage st u now = (st, none) := by
  have hcond : jsTrim st.inputMessage.data = [] ∨ st.wsConn = none ∨
      st.isConnected = false := by
    rcases h with h | h
    · exact Or.inl (jsTrim_eq_nil_of_all_white _ h)
    · exact Or.inr (Or.inr h)
  unfold handleSendMessage
  rw [if_pos hcond]

/-- Witness for `send_gate_no_op`: whitespace-only input while connected is
not sent. -/
theorem send_gate_no_op_witness :
    handleSendMessage ⟨some "trip1", [], [], "   ", true, some 0⟩ ⟨none, none⟩ "t1" =
      (⟨some "trip1", [], [], "   ", true, some 0⟩, none) :=
  send_gate_no_op _ ⟨none, none⟩ "t1" (Or.inl (by decide))

/-- Claim C10: an explicitly reported zero progress (the plain number `0`, or
a `{current := 0, total := t}` pair) is rendered exactly like absent
progress: whenever the derived percent is `0` the bar width falls back to
`75`, so a genuine zero-percent progress is never displayed as a 0%-wide
bar. -/
theorem zero_progress_uses_fallback_width :
    (∀ p : Option Progress,
        progressPercent p = JSNum.num 0 → barWidthPercent p = JSNum.num 75) ∧
    barWidthPercent none = JSNum.num 75 ∧
    barWidthPercent (some (Progress.int 0)) = barWidthPercent none ∧
    ∀ t : ℤ, barWidthPercent (some (Progress.pair 0 t)) = barWidthPercent none := by
  refine ⟨?_, by decide, by decide, ?_⟩
  · intro p hp
    simp [barWidthPercent, hp, jsTruthy]
  · intro t
    by_cases ht : t = 0
    · subst ht; decide
    · have ht' : (t : ℚ) ≠ 0 := Int.cast_ne_zero.mpr ht
      simp [barWidthPercent, progressPercent, progressTruthy, jsDiv, jsMul,
        jsTruthy, ht']

/-- Witness for `zero_progress_uses_fallback_width`: the plain number `0`
falls back to the 75% width. -/
theorem zero_progress_uses_fallback_width_witness :
    barWidthPercent (some (Progress.int 0)) = JSNum.num 75 :=
  zero_progress_uses_fallback_width.1 (some (Progress.int 0)) (by decide)

/-- Claim C1 counterexample: at `progress = {current := 1, total := 0}` the
derived percent is `Infinity` (JavaScript `1 / 0 = Infinity`, then
`* 100`), not `0` as the claim states. -/
theorem progress_total_zero_cex :
    progressPercent (some (Progress.pair 1 0)) = JSNum.inf ∧
    progressPercent (some (Progress.pair 1 0)) ≠ JSNum.num 0 := by
  decide

/-- Claim C1 amended: a plain integer progress is taken directly as the
percent; a `{current, total}` pair with `total ≠ 0` yields
`100 * current / total`; but in the edge case `total = 0` the percent is
`Infinity` for positive `current`, `-Infinity` for negative `current` and
`NaN` for `current = 0` — never `0`. No division fault occurs in any case
(the derivation is a total function). -/
theorem progress_percent_derivation (n c t : ℤ) :
    progressPercent (some (Progress.int n)) = JSNum.num n ∧
    (t ≠ 0 → progressPercent (some (Progress.pair c t)) =
      JSNum.num (100 * (c : ℚ) / (t : ℚ))) ∧
    (0 < c → progressPercent (some (Progress.pair c 0)) = JSNum.inf) ∧
    (c < 0 → progressPercent (some (Progress.pair c 0)) = JSNum.negInf) ∧
    progressPercent (some (Progress.pair 0 0)) = JSNum.nan := by
  refine ⟨?_, ?_, ?_, ?_, by decide⟩
  · by_cases hn : n = 0
    · subst hn; decide
    · simp [progressPercent, progressTruthy, hn]
  · intro ht
    have ht' : (t : ℚ) ≠ 0 := Int.cast_ne_zero.mpr ht
    simp only [progressPercent, progressTruthy, jsDiv, jsMul, if_neg ht',
      if_true, ite_true, JSNum.num.injEq]
    ring
  · intro hc
    have h0 : ¬ ((c : ℚ) = 0) := by exact_mod_cast hc.ne'
    have hpos : (0 : ℚ) < (c : ℚ) := by exact_mod_cast hc
    norm_num [progressPercent, progressTruthy, jsDiv, jsMul, h0, hpos]
  · intro hc
    have h0 : ¬ ((c : ℚ) = 0) := by exact_mod_cast hc.ne
    have hneg : ¬ ((0 : ℚ) < (c : ℚ)) := by
      simp only [not_lt]
      exact_mod_cast hc.le
    norm_num [progressPercent, progressTruthy, jsDiv, jsMul, h0, hneg]

/-- Witness for `progress_percent_derivation`: `42` yields 42% and
`{current := 3, total := 4}` yields 75%. -/
theorem progress_percent_derivation_witness :
    progressPercent (some (Progress.int 42)) = JSNum.num 42 ∧
    progressPercent (some (Progress.pair 3 4)) = JSNum.num 75 := by
  refine ⟨(progress_percent_derivation 42 0 1).1, ?_⟩
  have h := (progress_percent_derivation 0 3 4).2.1 (by norm_num)
  rw [h]
  norm_num

/-- Claim C2 counterexample: a transcript message received in session
`tripA` is still present in the component's transcript after the session
identifier changes to `tripB` — the new session does not begin with an
empty transcript. -/
theorem session_switch_carry_over_cex :
    (sessionSwitch
        (onMessage (initialComponent "tripA" 0)
          (InboundEvent.chat ⟨"u1", "ann", "hello", "user", "t1"⟩))
        "tripB" 1).messages = [⟨"u1", "ann", "hello", "user", "t1"⟩] ∧
    (sessionSwitch
        (onMessage (initialComponent "tripA" 0)
          (InboundEvent.chat ⟨"u1", "ann", "hello", "user", "t1"⟩))
        "tripB" 1).messages ≠ [] := by
  decide

/-- Claim C2 amended: when the session identifier changes, the effect
closes the old connection and opens a new one bound to the new identifier,
but the transcript and the agent-status collection are left exactly as
they were — state carries over across sessions — and a chat event handled
after the switch is appended to the carried-over transcript rather than to
an empty one. -/
theorem session_switch_keeps_state (st : ChatComponent) (newTrip : String)
    (newConn : ℕ) (m : Message) :
    (sessionSwitch st newTrip newConn).tripId = some newTrip ∧
    (sessionSwitch st newTrip newConn).wsConn = some newConn ∧
    (sessionSwitch st newTrip newConn).messages = st.messages ∧
    (sessionSwitch st newTrip newConn).agentStatuses = st.agentStatuses ∧
    (onMessage (sessionSwitch st newTrip newConn) (InboundEvent.chat m)).messages =
      st.messages ++ [m] :=
  ⟨rfl, rfl, rfl, rfl, rfl⟩

/-- The record a status update stores under the event's name: all current
fields from the event; history `[]` for a fresh agent, otherwise the prior
record's history extended by the prior current pair and capped at 10. -/
theorem findAgent_statusReduce (s : List AgentStatus) (e : AgentStatusEvent) :
    findAgent (statusReduce s e) e.agent_name =
      some (recordOfEvent e
        (match findAgent s e.agent_name with
         | none => []
         | some old => sliceLast 10 (old.step_history ++ [(old.step, old.timestamp)]))) := by
  induction s with
  | nil => simp [statusReduce, findAgent]
  | cons r rest ih =>
      by_cases h : r.agent_name = e.agent_name
      · simp [statusReduce, findAgent, h]
      · have hb : (r.agent_name == e.agent_name) = false := by simp [h]
        simp only [statusReduce, findAgent] at ih ⊢
        rw [if_neg (by simp [h])]
        simp only [List.find?_cons]
        rw [hb]
        exact ih

/-- Claim C8 counterexample: two identical consecutive events for one agent
leave a record whose current `(step, timestamp)` pair is an element of its
own step history. -/
theorem current_step_in_own_history_cex :
    (statusReduce (statusReduce []
        (⟨"planner", "running", "searching", "t1", none, none⟩ : AgentStatusEvent))
        ⟨"planner", "running", "searching", "t1", none, none⟩) =
      [⟨"planner", "running", "searching", "t1", none, none, [("searching", "t1")]⟩] ∧
    ((⟨"planner", "running", "searching", "t1", none, none,
        [("searching", "t1")]⟩ : AgentStatus).step,
      (⟨"planner", "running", "searching", "t1", none, none,
        [("searching", "t1")]⟩ : AgentStatus).timestamp) ∈
      (⟨"planner", "running", "searching", "t1", none, none,
        [("searching", "t1")]⟩ : AgentStatus).step_history := by
  decide

/-- Claim C8 amended: a record's step history holds only pairs taken from
previous records (the prior current pair and prior history entries), so
after an update the current `(step, timestamp)` pair is not in the
record's own history provided the incoming pair does not repeat the prior
record's current pair or one of its history entries; for a fresh agent the
history is empty and the property holds unconditionally. -/
theorem current_step_not_in_history_of_fresh_pair (prev : List AgentStatus)
    (e : AgentStatusEvent) (r : AgentStatus)
    (hr : findAgent (statusReduce prev e) e.agent_name = some r)
    (hfresh : ∀ old, findAgent prev e.agent_name = some old →
      (e.step, e.timestamp) ∉ old.step_history ∧
        (e.step, e.timestamp) ≠ (old.step, old.timestamp)) :
    (r.step, r.timestamp) ∉ r.step_history := by
  rcases hfa : findAgent prev e.agent_name with _ | old
  · rw [findAgent_statusReduce, hfa] at hr
    injection hr with h
    subst h
    simp
  · rw [findAgent_statusReduce, hfa] at hr
    injection hr with h
    subst h
    intro hmem
    simp only [recordOfEvent_step, recordOfEvent_timestamp, recordOfEvent_history,
      sliceLast] at hmem
    have hmem' : (e.step, e.timestamp) ∈
        old.step_history ++ [(old.step, old.timestamp)] :=
      List.mem_of_mem_drop hmem
    rcases List.mem_append.mp hmem' with hmem'' | hmem''
    · exact (hfresh old hfa).1 hmem''
    · exact (hfresh old hfa).2 (List.mem_singleton.mp hmem'')

/-- Witness for `current_step_not_in_history_of_fresh_pair`: after a
distinct second event, the current pair is absent from the history. -/
theorem current_step_not_in_history_of_fresh_pair_witness :
    ((recordOfEvent ⟨"planner", "running", "searching", "t1", none, none⟩
        [("init", "t0")]).step,
      (recordOfEvent ⟨"planner", "running", "searching", "t1", none, none⟩
        [("init", "t0")]).timestamp) ∉
      (recordOfEvent ⟨"planner", "running", "searching", "t1", none, none⟩
        [("init", "t0")]).step_history :=
  current_step_not_in_history_of_fresh_pair
    (statusReduce [] ⟨"planner", "starting", "init", "t0", none, none⟩)
    ⟨"planner", "running", "searching", "t1", none, none⟩
    (recordOfEvent ⟨"planner", "running", "searching", "t1", none, none⟩
      [("init", "t0")])
    (by decide)
    (by
      intro old hold
      have hc : findAgent (statusReduce []
          (⟨"planner", "starting", "init", "t0", none, none⟩ : AgentStatusEvent))
          (⟨"planner", "running", "searching", "t1", none, none⟩ :
            AgentStatusEvent).agent_name =
          some ⟨"planner", "starting", "init", "t0", none, none, []⟩ := by decide
      obtain rfl := Option.some.inj (hold.symm.trans hc)
      exact ⟨by decide, by decide⟩)

/-- Every character produced by a single-step escape chain agrees with the
combined simultaneous escape of that character. -/
theorem escChain_char (c : Char) :
    ((((escAmp c).flatMap escLt).flatMap escGt).flatMap escQuot).flatMap escApos =
      escAll c := by
  by_cases h1 : c = '&'
  · subst h1; decide
  · by_cases h2 : c = '<'
    · subst h2; decide
    · by_cases h3 : c = '>'
      · subst h3; decide
      · by_cases h4 : c = quoteChar
        · subst h4; decide
        · by_cases h5 : c = aposChar
          · subst h5; decide
          · simp [escAmp, escLt, escGt, escQuot, escApos, escAll, h1, h2, h3, h4, h5]

/-- The five sequential global replaces of `escapeHtml` act as one
simultaneous per-character substitution. -/
theorem escapeHtml_eq_flatMap (s : List Char) : escapeHtml s = s.flatMap escAll := by
  induction s with
  | nil => rfl
  | cons c t ih =>
      simp only [escapeHtml, List.flatMap_cons, List.flatMap_append] at ih ⊢
      rw [escChain_char, ih]

/-- Escaped text contains no `<`, `>`, double quote or apostrophe. -/
theorem escapeHtml_no_specials (s : List Char) :
    ∀ c ∈ escapeHtml s, c ≠ '<' ∧ c ≠ '>' ∧ c ≠ quoteChar ∧ c ≠ aposChar := by
  intro c hc
  rw [escapeHtml_eq_flatMap] at hc
  rcases List.mem_flatMap.mp hc with ⟨d, _, hcd⟩
  unfold escAll at hcd
  split_ifs at hcd with h1 h2 h3 h4 h5
  · simp only [List.mem_cons, List.not_mem_nil, or_false] at hcd
    rcases hcd with rfl | rfl | rfl | rfl | rfl <;> decide
  · simp only [List.mem_cons, List.not_mem_nil, or_false] at hcd
    rcases hcd with rfl | rfl | rfl | rfl <;> decide
  · simp only [List.mem_cons, List.not_mem_nil, or_false] at hcd
    rcases hcd with rfl | rfl | rfl | rfl <;> decide
  · simp only [List.mem_cons, List.not_mem_nil, or_false] at hcd
    rcases hcd with rfl | rfl | rfl | rfl | rfl | rfl <;> decide
  · simp only [List.mem_cons, List.not_mem_nil, or_false] at hcd
    rcases hcd with rfl | rfl | rfl | rfl | rfl | rfl <;> decide
  · simp only [List.mem_singleton] at hcd
    subst hcd
    exact ⟨h2, h3, h4, h5⟩

/-- Claim C4: the renderer escapes the five HTML-significant characters to
their entity forms before any emphasis substitution — the sequential
replaces equal one simultaneous entity substitution, after which none of
`<`, `>`, `"`, `'` remains — and rendering the hostile input
`<script>alert(1)</script>` yields output with no raw `<` or `>`. -/
theorem renderer_escapes_before_emphasis :
    (∀ s : List Char, escapeHtml s = s.flatMap escAll) ∧
    (∀ s : List Char, ∀ c ∈ escapeHtml s,
      c ≠ '<' ∧ c ≠ '>' ∧ c ≠ quoteChar ∧ c ≠ aposChar) ∧
    ∀ c ∈ (renderMessageContent "<script>alert(1)</script>").data,
      c ≠ '<' ∧ c ≠ '>' := by
  refine ⟨escapeHtml_eq_flatMap, escapeHtml_no_specials, ?_⟩
  decide

/-- Witness for `renderer_escapes_before_emphasis` at the ampersand the
escaped output starts with. -/
theorem renderer_escapes_before_emphasis_witness :
    ('&' ∈ (renderMessageContent "<script>alert(1)</script>").data) ∧
    ('&' : Char) ≠ '<' ∧ ('&' : Char) ≠ '>' :=
  ⟨by decide, renderer_escapes_before_emphasis.2.2 '&' (by decide)⟩

end Chat
